import Mathlib

/-!
Verification development for the flow/action construction layer of an
OpenFlow rule builder (pkg/ovs/openflow/ofctrl_action.go) and the
deterministic interface-name hashing utility (pkg/agent/util).

The Go source is shallowly embedded: Go methods that mutate the builder
through a pointer become state-passing functions, machine integers become
Nat (or Int for Go int) with explicit reductions modulo 2^w at every Go
conversion, and the external libOpenflow/ofctrl library boundary is
modelled from the specification of that boundary.
-/

namespace Antrea

/-- Modelled from the spec: the field registry resolves a symbolic field
name to a protocol field with a declared width in bytes (`Length`, as in
libOpenflow's `MatchField`). The registry is static and read-only. -/
structure MatchField where
  name : String
  Length : Nat
  deriving Repr, DecidableEq

/-- Modelled from the spec: registers follow the deterministic naming
convention `reg<N>`; this is the common name stem. -/
def NxmFieldReg : String := "reg"

/-- Modelled from the spec: name of the connection-tracking mark field
(32 bits, i.e. 4 bytes). -/
def NxmFieldCtMark : String := "ct_mark"

/-- Modelled from the spec: name of the connection-tracking label field
(128 bits, i.e. 16 bytes). -/
def NxmFieldCtLabel : String := "ct_label"

/-- Modelled from the spec: name of the ARP operation field (16 bits). -/
def NxmFieldARPOp : String := "arp_op"

/-- Modelled from the spec: the static field registry, mapping each field
name to its width in bytes. Registers `reg0` .. `reg15` are 4 bytes wide,
the ct mark is 4 bytes, the ct label 16 bytes, the ARP operation 2 bytes. -/
def fieldRegistry : List (String × Nat) :=
  ((List.range 16).map (fun n => (NxmFieldReg ++ toString n, 4))) ++
    [(NxmFieldCtMark, 4), (NxmFieldCtLabel, 16), (NxmFieldARPOp, 2)]

/-- Modelled from the spec: pure lookup of a field name in the registry. -/
def findField (name : String) : Option MatchField :=
  (fieldRegistry.find? (fun p => p.1 == name)).map (fun p => ⟨p.1, p.2⟩)

/-- Modelled from the spec: libOpenflow's `FindFieldHeaderByName` returns a
(possibly nil) field pointer together with a (possibly nil) error, failing
with an unknown-field error when the name has no registered mapping. -/
def FindFieldHeaderByName (name : String) : Option MatchField × Option String :=
  match findField name with
  | some f => (some f, none)
  | none => (none, some "UnknownField")

/-- Modelled from the spec: `Range` is an inclusive pair of bit offsets
`{start, stop}` within a field (the Go `Range` is `[2]uint32`; `rng[0]` is
`start` and `rng[1]` is `stop`). -/
structure Range where
  start : Nat
  stop : Nat
  deriving Repr, DecidableEq

/-- Derived length of a `Range`: `stop - start + 1` (spec §3). -/
def Range.length (r : Range) : Nat := r.stop - r.start + 1

/-- Modelled from the spec: libOpenflow's `NXRange` carries the same pair
of inclusive bit offsets. -/
structure NXRange where
  start : Nat
  stop : Nat
  deriving Repr, DecidableEq

/-- Conversion of a `Range` to an `NXRange` (Go `Range.ToNXRange`). -/
def Range.toNXRange (r : Range) : NXRange := ⟨r.start, r.stop⟩

/-- Dereference of a possibly-nil field pointer to read its byte width;
the Go source only dereferences when the lookup error is nil, in which
case the pointer is never nil. -/
def matchFieldLength : Option MatchField → Nat
  | some f => f.Length
  | none => 0

/-- Embedding of `getFieldRange` (ofctrl_action.go): resolve the name and
derive the default full-field range `{0, Length*8 - 1}`; on lookup failure
return the nil field, the placeholder `Range{0, 0}` and the error. -/
def getFieldRange (name : String) : Option MatchField × Range × Option String :=
  match FindFieldHeaderByName name with
  | (field, some err) => (field, ⟨0, 0⟩, some err)
  | (field, none) => (field, ⟨0, matchFieldLength field * 8 - 1⟩, none)

/-- Modelled from the spec: a nested register-load action built by
libOpenflow's `NewNXActionRegLoad`; it records the target bit range, the
(possibly nil) target field and the loaded value. -/
structure NXActionRegLoad where
  rng : NXRange
  field : Option MatchField
  value : Nat
  deriving Repr, DecidableEq

/-- Modelled from the spec: a nested register-move action built by
libOpenflow's `NewNXActionRegMove`; it records a single bit count `nBits`
used for both sides, the two start offsets and the two (possibly nil)
fields. -/
structure NXActionRegMove where
  nBits : Nat
  fromStart : Nat
  toStart : Nat
  fromField : Option MatchField
  toField : Option MatchField
  deriving Repr, DecidableEq

/-- Modelled from the spec: the closed set of nested (openflow13) actions
a ConnTrack sub-builder can accumulate. -/
inductive OF13Action
  | regLoad (a : NXActionRegLoad)
  | regMove (a : NXActionRegMove)
  deriving Repr, DecidableEq

/-- Modelled from the spec: the terminal (ofctrl) actions that can occupy
the builder's single last-action slot. -/
inductive OfctrlAction
  | dropAction
  | outputPort (port : Nat)
  | nxOutput (name : String) (field : MatchField) (startBit stopBit : Nat)
  | outputInPort
  | resubmit (port : Option Nat) (table : Nat)
  | outputNormal
  | connTrack (commit force : Bool) (table zone : Nat) (actions : List OF13Action)
  deriving Repr, DecidableEq

/-- Modelled from the spec: ofctrl's `NewNXOutput` resolves the field name
and returns either the constructed output action and a nil error, or a nil
action and a lookup error. -/
def NewNXOutput (name : String) (startBit stopBit : Nat) :
    Option OfctrlAction × Option String :=
  match findField name with
  | some f => (some (.nxOutput name f startBit stopBit), none)
  | none => (none, some "UnknownField")

/-- Modelled from the spec: a field-mutating (non-terminal) action recorded
on the underlying ofctrl flow, in call order. -/
inductive MutAction
  | loadReg (name : String) (value : Nat) (rng : NXRange)
  | moveRegs (fromName toName : String) (fromRng toRng : NXRange)
  | setMacDa (mac : List Nat)
  | setMacSa (mac : List Nat)
  | setARPShaAct (mac : List Nat)
  | setARPThaAct (mac : List Nat)
  | setARPSpaAct (ip : List Nat)
  | setARPTpaAct (ip : List Nat)
  | setIPField (ip : List Nat) (which : String)
  | decTTLAct
  | conjunctionAct (conjID : Nat) (clauseID : Nat) (nClause : Nat)
  deriving Repr, DecidableEq

/-- Modelled from the spec: the observable state of the underlying ofctrl
flow under construction — the ordered field-mutating actions and the single
terminal last-action slot. -/
structure OfFlow where
  lastAction : Option OfctrlAction
  mutActions : List MutAction
  deriving Repr, DecidableEq

/-- The flow builder (Go `ofFlowBuilder`), owning the flow under
construction. -/
structure OfFlowBuilder where
  ofFlow : OfFlow
  deriving Repr, DecidableEq

/-- Embedding of Go `ofFlowAction` (ofctrl_action.go line 11): a handle on
the builder through which action methods are invoked. -/
structure OfFlowAction where
  builder : OfFlowBuilder
  deriving Repr, DecidableEq

/-- Model plumbing for Go's in-place assignment
`a.builder.ofFlow.lastAction = act`. -/
def OfFlowBuilder.withLast (b : OfFlowBuilder) (act : Option OfctrlAction) :
    OfFlowBuilder :=
  { b with ofFlow := { b.ofFlow with lastAction := act } }

/-- Model plumbing for appending one field-mutating action to the flow. -/
def OfFlowBuilder.appendMut (b : OfFlowBuilder) (m : MutAction) : OfFlowBuilder :=
  { b with ofFlow := { b.ofFlow with mutActions := b.ofFlow.mutActions ++ [m] } }

/-- Modelled from the spec: ofctrl `Flow.LoadReg` records a register load
among the flow's field-mutating actions. -/
def OfFlowBuilder.LoadReg (b : OfFlowBuilder) (name : String) (value : Nat)
    (rng : NXRange) : OfFlowBuilder :=
  b.appendMut (.loadReg name value rng)

/-- Modelled from the spec: ofctrl `Flow.MoveRegs` records a field-to-field
move among the flow's field-mutating actions. -/
def OfFlowBuilder.MoveRegs (b : OfFlowBuilder) (fromName toName : String)
    (fromRng toRng : NXRange) : OfFlowBuilder :=
  b.appendMut (.moveRegs fromName toName fromRng toRng)

/-- Modelled from the spec: ofctrl `Flow.ConnTrack` attaches the given
connection-track parameters and accumulated nested actions as the flow's
terminal action (spec §4.3). -/
def OfFlowBuilder.ConnTrackAct (b : OfFlowBuilder) (commit force : Bool)
    (table zone : Nat) (acts : List OF13Action) : OfFlowBuilder :=
  b.withLast (some (.connTrack commit force table zone acts))

/-- Go conversion `uint32(i)` for `i : int`. -/
def toUInt32n (i : Int) : Nat := (i % 4294967296).toNat

/-- Go conversion `uint16(i)` for `i : int`. -/
def toUInt16n (i : Int) : Nat := (i % 65536).toNat

/-- Embedding of `Drop` (ofctrl_action.go line 16): set the builder's
last-action slot to the switch's drop action. -/
def OfFlowAction.Drop (a : OfFlowAction) : OfFlowBuilder :=
  a.builder.withLast (some .dropAction)

/-- Embedding of `Output` (line 23): set the last-action slot to an output
to port `uint32(port)`. -/
def OfFlowAction.Output (a : OfFlowAction) (port : Int) : OfFlowBuilder :=
  a.builder.withLast (some (.outputPort (toUInt32n port)))

/-- Embedding of `OutputFieldRange` (line 30): build an NX output action
from the field name and range, discard the error, and assign the (possibly
nil) result to the last-action slot. -/
def OfFlowAction.OutputFieldRange (a : OfFlowAction) (name : String) (rng : Range) :
    OfFlowBuilder :=
  let oe := NewNXOutput name rng.start rng.stop
  a.builder.withLast oe.1

/-- Embedding of `OutputRegRange` (line 37): derive the field name `reg<N>`
from the register ID and delegate to `OutputFieldRange`. -/
def OfFlowAction.OutputRegRange (a : OfFlowAction) (regID : Int) (rng : Range) :
    OfFlowBuilder :=
  a.OutputFieldRange (NxmFieldReg ++ toString regID) rng

/-- Embedding of `OutputInPort` (line 43). -/
def OfFlowAction.OutputInPort (a : OfFlowAction) : OfFlowBuilder :=
  a.builder.withLast (some .outputInPort)

/-- The connection-track base parameters (Go `ctBase`): `ctTable` is a
uint8, `ctZone` a uint16. -/
structure CtBase where
  commit : Bool
  force : Bool
  ctTable : Nat
  ctZone : Nat
  deriving Repr, DecidableEq

/-- Modelled from the spec: sentinel table ID meaning "stay in the
originating table" (Go `LastTableID`, the last value of the uint8 type). -/
def LastTableID : Nat := 255

/-- Embedding of the textual representation built (and then discarded) by
`CT` (lines 57-72): "commit", "table=<n>" unless the sentinel, and
"zone=<n>" only when `zone > 0`, comma separated. -/
def ctReprString (commit : Bool) (tableID : Nat) (zone : Int) : String :=
  let r0 := if commit then "commit" else ""
  let r1 :=
    if tableID ≠ LastTableID then
      (if r0 ≠ "" then r0 ++ "," else r0) ++ "table=" ++ toString tableID
    else r0
  if zone > 0 then
    (if r1 ≠ "" then r1 ++ "," else r1) ++ "zone=" ++ toString zone
  else r1

/-- Embedding of Go `ofCTAction` (line 81): the connection-track
sub-builder, holding the base parameters, the accumulated nested actions
and the parent builder. -/
structure OfCTAction where
  base : CtBase
  actions : List OF13Action
  builder : OfFlowBuilder
  deriving Repr, DecidableEq

/-- Embedding of `CT` (line 50): open a connection-track sub-builder with
`force = false`, `ctTable = uint8(tableID)` and `ctZone = uint16(zone)`,
an empty nested-action list, and the parent builder. The Go code also
builds the `ctReprString` text and discards it (a dead local). -/
def OfFlowAction.CT (a : OfFlowAction) (commit : Bool) (tableID : Nat) (zone : Int) :
    OfCTAction :=
  { base := { commit := commit, force := false, ctTable := tableID % 256,
              ctZone := toUInt16n zone },
    actions := [], builder := a.builder }

/-- Embedding of `ofCTAction.load` (line 101): append a register-load
nested action over the given field, value and range. -/
def OfCTAction.load (a : OfCTAction) (field : Option MatchField) (value : Nat)
    (rng : Range) : OfCTAction :=
  { a with actions :=
      a.actions ++ [.regLoad { rng := rng.toNXRange, field := field, value := value }] }

/-- Embedding of `LoadToMark` (line 88): resolve the ct mark field and its
default range (discarding the error) and append a load of `value` there. -/
def OfCTAction.LoadToMark (a : OfCTAction) (value : Nat) : OfCTAction :=
  let fr := getFieldRange NxmFieldCtMark
  a.load fr.1 value fr.2.1

/-- Embedding of `LoadToLabelRange` (line 95): resolve the ct label field
(discarding the default range and the error) and append a load of `value`
at the caller's range. -/
def OfCTAction.LoadToLabelRange (a : OfCTAction) (value : Nat) (rng : Range) :
    OfCTAction :=
  let fr := getFieldRange NxmFieldCtLabel
  a.load fr.1 value rng

/-- Embedding of `ofCTAction.move` (line 114): append a register-move
nested action with the single bit count `nBits` and the two offsets. -/
def OfCTAction.move (a : OfCTAction) (fromField toField : Option MatchField)
    (nBits fromStart toStart : Nat) : OfCTAction :=
  { a with actions :=
      a.actions ++ [.regMove { nBits := nBits, fromStart := fromStart,
                               toStart := toStart, fromField := fromField,
                               toField := toField }] }

/-- Embedding of `MoveToLabel` (line 107): resolve the from field and the
ct label field (discarding both errors) and append a move whose bit count
is `uint16(fromRng.length())`, from offset `uint16(fromRng[0])` to offset
`uint16(labelRng[0])`; `labelRng`'s length is never read. -/
def OfCTAction.MoveToLabel (a : OfCTAction) (fromName : String)
    (fromRng labelRng : Range) : OfCTAction :=
  let ff := FindFieldHeaderByName fromName
  let tf := FindFieldHeaderByName NxmFieldCtLabel
  a.move ff.1 tf.1 (fromRng.length % 65536) (fromRng.start % 65536)
    (labelRng.start % 65536)

/-- Embedding of `CTDone` (line 120): attach the accumulated base
parameters and nested actions to the parent builder's flow as its terminal
connection-track action and return the parent builder. -/
def OfCTAction.CTDone (a : OfCTAction) : OfFlowBuilder :=
  a.builder.ConnTrackAct a.base.commit a.base.force a.base.ctTable a.base.ctZone
    a.actions

/-- Embedding of `SetDstMAC` (line 126). -/
def OfFlowAction.SetDstMAC (a : OfFlowAction) (addr : List Nat) : OfFlowBuilder :=
  a.builder.appendMut (.setMacDa addr)

/-- Embedding of `SetSrcMAC` (line 132). -/
def OfFlowAction.SetSrcMAC (a : OfFlowAction) (addr : List Nat) : OfFlowBuilder :=
  a.builder.appendMut (.setMacSa addr)

/-- Embedding of `SetARPSha` (line 138). -/
def OfFlowAction.SetARPSha (a : OfFlowAction) (addr : List Nat) : OfFlowBuilder :=
  a.builder.appendMut (.setARPShaAct addr)

/-- Embedding of `SetARPTha` (line 144). -/
def OfFlowAction.SetARPTha (a : OfFlowAction) (addr : List Nat) : OfFlowBuilder :=
  a.builder.appendMut (.setARPThaAct addr)

/-- Embedding of `SetARPSpa` (line 150). -/
def OfFlowAction.SetARPSpa (a : OfFlowAction) (addr : List Nat) : OfFlowBuilder :=
  a.builder.appendMut (.setARPSpaAct addr)

/-- Embedding of `SetARPTpa` (line 156). -/
def OfFlowAction.SetARPTpa (a : OfFlowAction) (addr : List Nat) : OfFlowBuilder :=
  a.builder.appendMut (.setARPTpaAct addr)

/-- Embedding of `SetSrcIP` (line 162). -/
def OfFlowAction.SetSrcIP (a : OfFlowAction) (addr : List Nat) : OfFlowBuilder :=
  a.builder.appendMut (.setIPField addr "Src")

/-- Embedding of `SetDstIP` (line 168). -/
def OfFlowAction.SetDstIP (a : OfFlowAction) (addr : List Nat) : OfFlowBuilder :=
  a.builder.appendMut (.setIPField addr "Dst")

/-- Embedding of `SetTunnelDst` (line 174). -/
def OfFlowAction.SetTunnelDst (a : OfFlowAction) (addr : List Nat) : OfFlowBuilder :=
  a.builder.appendMut (.setIPField addr "TunDst")

/-- Embedding of `LoadARPOperation` (line 180): load into the ARP
operation field at bits 0..15. -/
def OfFlowAction.LoadARPOperation (a : OfFlowAction) (value : Nat) : OfFlowBuilder :=
  a.builder.LoadReg NxmFieldARPOp value ⟨0, 15⟩

/-- Embedding of `LoadRange` (line 186): load `value` into the named field
at the given range. -/
def OfFlowAction.LoadRange (a : OfFlowAction) (name : String) (value : Nat)
    (rng : Range) : OfFlowBuilder :=
  a.builder.LoadReg name value rng.toNXRange

/-- Embedding of `LoadRegRange` (line 192): derive the name `reg<N>` from
the register ID and load `value` there at the given range. -/
def OfFlowAction.LoadRegRange (a : OfFlowAction) (regID : Int) (value : Nat)
    (rng : Range) : OfFlowBuilder :=
  a.builder.LoadReg (NxmFieldReg ++ toString regID) value rng.toNXRange

/-- Embedding of `MoveRange` (line 207): record a move from `fromField` at
`fromRange` to `toField` at `toRange`; no validation is performed. -/
def OfFlowAction.MoveRange (a : OfFlowAction) (fromField toField : String)
    (fromRange toRange : Range) : OfFlowBuilder :=
  a.builder.MoveRegs fromField toField fromRange.toNXRange toRange.toNXRange

/-- Embedding of `Move` (line 200): resolve both the from range and the to
range with `getFieldRange(fromField)` (the to field's own name is never
looked up), discarding both errors, and delegate to `MoveRange`. -/
def OfFlowAction.Move (a : OfFlowAction) (fromField toField : String) :
    OfFlowBuilder :=
  let fr1 := getFieldRange fromField
  let fr2 := getFieldRange fromField
  a.MoveRange fromField toField fr1.2.1 fr2.2.1

/-- Embedding of `Resubmit` (line 214): set the last-action slot to a
resubmit carrying the port and `uint8(table)`. -/
def OfFlowAction.Resubmit (a : OfFlowAction) (ofPort : Nat) (table : Nat) :
    OfFlowBuilder :=
  a.builder.withLast (some (.resubmit (some ofPort) (table % 256)))

/-- Embedding of `ResubmitToTable` (line 221): set the last-action slot to
a resubmit with no port override and `uint8(table)`. -/
def OfFlowAction.ResubmitToTable (a : OfFlowAction) (table : Nat) : OfFlowBuilder :=
  a.builder.withLast (some (.resubmit none (table % 256)))

/-- Embedding of `DecTTL` (line 229). -/
def OfFlowAction.DecTTL (a : OfFlowAction) : OfFlowBuilder :=
  a.builder.appendMut .decTTLAct

/-- Embedding of `Normal` (line 235): set the last-action slot to the
normal-forwarding action. -/
def OfFlowAction.Normal (a : OfFlowAction) : OfFlowBuilder :=
  a.builder.withLast (some .outputNormal)

/-- Embedding of `Conjunction` (line 242). -/
def OfFlowAction.Conjunction (a : OfFlowAction) (conjID clauseID nClause : Nat) :
    OfFlowBuilder :=
  a.builder.appendMut (.conjunctionAct conjID clauseID nClause)

/-- A freshly created flow with no actions. -/
def emptyOfFlow : OfFlow := ⟨none, []⟩

/-- A freshly created builder (no terminal action, no mutating actions). -/
def newBuilder : OfFlowBuilder := ⟨emptyOfFlow⟩

/-- The action handle on a freshly created builder. -/
def newAction : OfFlowAction := ⟨newBuilder⟩

/-- One field-mutating (non-terminal) builder call, used to quantify over
arbitrary call sequences. -/
inductive MutCall
  | setDstMAC (addr : List Nat)
  | setSrcMAC (addr : List Nat)
  | setARPShaCall (addr : List Nat)
  | setARPThaCall (addr : List Nat)
  | setARPSpaCall (addr : List Nat)
  | setARPTpaCall (addr : List Nat)
  | setSrcIP (addr : List Nat)
  | setDstIP (addr : List Nat)
  | setTunnelDst (addr : List Nat)
  | loadARPOperation (value : Nat)
  | loadRange (name : String) (value : Nat) (rng : Range)
  | loadRegRange (regID : Int) (value : Nat) (rng : Range)
  | move (fromName toName : String)
  | moveRange (fromName toName : String) (fromRng toRng : Range)
  | decTTLCall
  | conjunctionCall (conjID clauseID nClause : Nat)

/-- Dispatch of one field-mutating call on a builder. -/
def applyMutCall (b : OfFlowBuilder) (c : MutCall) : OfFlowBuilder :=
  match c with
  | .setDstMAC addr => OfFlowAction.SetDstMAC ⟨b⟩ addr
  | .setSrcMAC addr => OfFlowAction.SetSrcMAC ⟨b⟩ addr
  | .setARPShaCall addr => OfFlowAction.SetARPSha ⟨b⟩ addr
  | .setARPThaCall addr => OfFlowAction.SetARPTha ⟨b⟩ addr
  | .setARPSpaCall addr => OfFlowAction.SetARPSpa ⟨b⟩ addr
  | .setARPTpaCall addr => OfFlowAction.SetARPTpa ⟨b⟩ addr
  | .setSrcIP addr => OfFlowAction.SetSrcIP ⟨b⟩ addr
  | .setDstIP addr => OfFlowAction.SetDstIP ⟨b⟩ addr
  | .setTunnelDst addr => OfFlowAction.SetTunnelDst ⟨b⟩ addr
  | .loadARPOperation value => OfFlowAction.LoadARPOperation ⟨b⟩ value
  | .loadRange name value rng => OfFlowAction.LoadRange ⟨b⟩ name value rng
  | .loadRegRange regID value rng => OfFlowAction.LoadRegRange ⟨b⟩ regID value rng
  | .move f t => OfFlowAction.Move ⟨b⟩ f t
  | .moveRange f t fr tr => OfFlowAction.MoveRange ⟨b⟩ f t fr tr
  | .decTTLCall => OfFlowAction.DecTTL ⟨b⟩
  | .conjunctionCall conjID clauseID nClause =>
      OfFlowAction.Conjunction ⟨b⟩ conjID clauseID nClause

/-- The single flow-level action a field-mutating call records; it is a
pure function of the call alone. -/
def mutActionOf : MutCall → MutAction
  | .setDstMAC addr => .setMacDa addr
  | .setSrcMAC addr => .setMacSa addr
  | .setARPShaCall addr => .setARPShaAct addr
  | .setARPThaCall addr => .setARPThaAct addr
  | .setARPSpaCall addr => .setARPSpaAct addr
  | .setARPTpaCall addr => .setARPTpaAct addr
  | .setSrcIP addr => .setIPField addr "Src"
  | .setDstIP addr => .setIPField addr "Dst"
  | .setTunnelDst addr => .setIPField addr "TunDst"
  | .loadARPOperation value => .loadReg NxmFieldARPOp value ⟨0, 15⟩
  | .loadRange name value rng => .loadReg name value rng.toNXRange
  | .loadRegRange regID value rng =>
      .loadReg (NxmFieldReg ++ toString regID) value rng.toNXRange
  | .move f t =>
      .moveRegs f t (getFieldRange f).2.1.toNXRange (getFieldRange f).2.1.toNXRange
  | .moveRange f t fr tr => .moveRegs f t fr.toNXRange tr.toNXRange
  | .decTTLCall => .decTTLAct
  | .conjunctionCall conjID clauseID nClause =>
      .conjunctionAct conjID clauseID nClause

/-- One terminal builder call. -/
inductive TermCall
  | drop
  | output (port : Int)
  | outputFieldRange (name : String) (rng : Range)
  | outputRegRange (regID : Int) (rng : Range)
  | outputInPort
  | resubmit (ofPort table : Nat)
  | resubmitToTable (table : Nat)
  | normal

/-- Dispatch of one terminal call on a builder. -/
def applyTermCall (b : OfFlowBuilder) (c : TermCall) : OfFlowBuilder :=
  match c with
  | .drop => OfFlowAction.Drop ⟨b⟩
  | .output port => OfFlowAction.Output ⟨b⟩ port
  | .outputFieldRange name rng => OfFlowAction.OutputFieldRange ⟨b⟩ name rng
  | .outputRegRange regID rng => OfFlowAction.OutputRegRange ⟨b⟩ regID rng
  | .outputInPort => OfFlowAction.OutputInPort ⟨b⟩
  | .resubmit ofPort table => OfFlowAction.Resubmit ⟨b⟩ ofPort table
  | .resubmitToTable table => OfFlowAction.ResubmitToTable ⟨b⟩ table
  | .normal => OfFlowAction.Normal ⟨b⟩

/-- The value a terminal call stores in the single last-action slot; it is
a pure function of the call alone (the previous slot content is
overwritten). -/
def termSlotOf : TermCall → Option OfctrlAction
  | .drop => some .dropAction
  | .output port => some (.outputPort (toUInt32n port))
  | .outputFieldRange name rng => (NewNXOutput name rng.start rng.stop).1
  | .outputRegRange regID rng =>
      (NewNXOutput (NxmFieldReg ++ toString regID) rng.start rng.stop).1
  | .outputInPort => some .outputInPort
  | .resubmit ofPort table => some (.resubmit (some ofPort) (table % 256))
  | .resubmitToTable table => some (.resubmit none (table % 256))
  | .normal => some .outputNormal

/-- One nested call on a connection-track sub-builder. -/
inductive CTCall
  | loadToMark (value : Nat)
  | loadToLabelRange (value : Nat) (rng : Range)
  | moveToLabel (fromName : String) (fromRng labelRng : Range)

/-- Dispatch of one nested call on a connection-track sub-builder. -/
def applyCTCall (a : OfCTAction) (c : CTCall) : OfCTAction :=
  match c with
  | .loadToMark value => a.LoadToMark value
  | .loadToLabelRange value rng => a.LoadToLabelRange value rng
  | .moveToLabel fromName fromRng labelRng => a.MoveToLabel fromName fromRng labelRng

/-- The single nested action a sub-builder call appends; it is a pure
function of the call alone. -/
def ctActionOf : CTCall → OF13Action
  | .loadToMark value =>
      .regLoad { rng := (getFieldRange NxmFieldCtMark).2.1.toNXRange,
                 field := (getFieldRange NxmFieldCtMark).1, value := value }
  | .loadToLabelRange value rng =>
      .regLoad { rng := rng.toNXRange,
                 field := (getFieldRange NxmFieldCtLabel).1, value := value }
  | .moveToLabel fromName fromRng labelRng =>
      .regMove { nBits := fromRng.length % 65536,
                 fromStart := fromRng.start % 65536,
                 toStart := labelRng.start % 65536,
                 fromField := (FindFieldHeaderByName fromName).1,
                 toField := (FindFieldHeaderByName NxmFieldCtLabel).1 }

end Antrea

namespace AntreaUtil

/-!
Embedding of the interface-name utility (Go package `util`). Go strings
are modelled as lists of bytes (each a `Nat` below 256 for well-formed
inputs), matching Go's byte-based `len` and slicing. The external
`crypto/sha1` and `encoding/hex` collaborators are modelled by a full
SHA-1 implementation over byte lists and lowercase hex encoding.
-/

/-- Reduction modulo 2^32, the word size of SHA-1. -/
def w32 (n : Nat) : Nat := n % 4294967296

/-- Left rotation of a 32-bit word by `s` bits. -/
def rotl32 (x s : Nat) : Nat := (x * 2 ^ s + x / 2 ^ (32 - s)) % 4294967296

/-- Modelled from the spec: the SHA-1 round function (crypto/sha1). -/
def sha1F (t b c d : Nat) : Nat :=
  if t < 20 then Nat.lor (Nat.land b c) (Nat.land (Nat.xor 4294967295 b) d)
  else if t < 40 then Nat.xor (Nat.xor b c) d
  else if t < 60 then Nat.lor (Nat.lor (Nat.land b c) (Nat.land b d)) (Nat.land c d)
  else Nat.xor (Nat.xor b c) d

/-- Modelled from the spec: the SHA-1 round constants (crypto/sha1). -/
def sha1K (t : Nat) : Nat :=
  if t < 20 then 1518500249
  else if t < 40 then 1859775393
  else if t < 60 then 2400959708
  else 3395469782

/-- The five-word SHA-1 chaining state. -/
structure Sha1State where
  h0 : Nat
  h1 : Nat
  h2 : Nat
  h3 : Nat
  h4 : Nat
  deriving Repr, DecidableEq

/-- Modelled from the spec: the SHA-1 initial chaining state. -/
def sha1Init : Sha1State :=
  ⟨1732584193, 4023233417, 2562383102, 271733878, 3285377520⟩

/-- Big-endian 8-byte encoding of a 64-bit length value. -/
def beBytes8 (n : Nat) : List Nat :=
  [n / 2 ^ 56 % 256, n / 2 ^ 48 % 256, n / 2 ^ 40 % 256, n / 2 ^ 32 % 256,
   n / 2 ^ 24 % 256, n / 2 ^ 16 % 256, n / 2 ^ 8 % 256, n % 256]

/-- Modelled from the spec: SHA-1 padding — append the 0x80 byte, zero
bytes until the length is 56 modulo 64, then the big-endian bit length. -/
def sha1Pad (msg : List Nat) : List Nat :=
  msg ++ 128 :: (List.replicate ((119 - msg.length % 64) % 64) 0 ++
    beBytes8 (msg.length * 8))

/-- Split a byte list into chunks of 64 bytes (the last chunk may be
shorter if the input length is not a multiple of 64; padded input always
splits evenly). -/
def chunks64 (l : List Nat) : List (List Nat) :=
  if h : l = [] then []
  else l.take 64 :: chunks64 (l.drop 64)
termination_by l.length
decreasing_by
  simp only [List.length_drop]
  have hpos : 0 < l.length := List.length_pos.mpr h
  omega

/-- Big-endian 32-bit word from the first four bytes of a list. -/
def beWord32 (l : List Nat) : Nat :=
  ((l.getD 0 0 * 256 + l.getD 1 0) * 256 + l.getD 2 0) * 256 + l.getD 3 0

/-- The sixteen message words of one 64-byte block. -/
def sha1Words (block : List Nat) : List Nat :=
  (List.range 16).map (fun i => beWord32 (block.drop (4 * i)))

/-- Modelled from the spec: extension of the sixteen message words to the
eighty-word SHA-1 schedule. -/
def sha1Extend (ws : List Nat) : List Nat :=
  (List.range 64).foldl
    (fun acc i =>
      acc ++ [rotl32 (Nat.xor (Nat.xor (acc.getD (i + 13) 0) (acc.getD (i + 8) 0))
        (Nat.xor (acc.getD (i + 2) 0) (acc.getD i 0))) 1])
    ws

/-- Modelled from the spec: the eighty SHA-1 compression rounds over one
schedule. -/
def sha1Compress (ws : List Nat) (s : Sha1State) : Sha1State :=
  (List.range 80).foldl
    (fun st t =>
      ⟨w32 (rotl32 st.h0 5 + sha1F t st.h1 st.h2 st.h3 + st.h4 + sha1K t +
         ws.getD t 0),
       st.h0, rotl32 st.h1 30, st.h2, st.h3⟩)
    s

/-- One SHA-1 block step: compress and add into the chaining state. -/
def sha1Block (s : Sha1State) (block : List Nat) : Sha1State :=
  let c := sha1Compress (sha1Extend (sha1Words block)) s
  ⟨w32 (s.h0 + c.h0), w32 (s.h1 + c.h1), w32 (s.h2 + c.h2), w32 (s.h3 + c.h3),
   w32 (s.h4 + c.h4)⟩

/-- Big-endian 4-byte encoding of one state word. -/
def wordBytes (h : Nat) : List Nat :=
  [h / 2 ^ 24 % 256, h / 2 ^ 16 % 256, h / 2 ^ 8 % 256, h % 256]

/-- The twenty digest bytes of a final chaining state. -/
def sha1Digest (s : Sha1State) : List Nat :=
  wordBytes s.h0 ++ wordBytes s.h1 ++ wordBytes s.h2 ++ wordBytes s.h3 ++
    wordBytes s.h4

/-- Modelled from the spec: `sha1.New` / `Write` / `Sum(nil)` — the SHA-1
digest of a byte message. -/
def sha1Sum (msg : List Nat) : List Nat :=
  sha1Digest ((chunks64 (sha1Pad msg)).foldl sha1Block sha1Init)

/-- Modelled from the spec: one lowercase hex digit byte ('0'..'9' then
'a'..'f') for a nibble. -/
def hexDigitByte (n : Nat) : Nat := if n < 10 then 48 + n else 87 + n

/-- Modelled from the spec: `hex.EncodeToString` — two lowercase hex digit
bytes per input byte, high nibble first (input bytes are below 256, so the
extra reduction modulo 16 on the high nibble is the Go `b >> 4`). -/
def bytesToHex : List Nat → List Nat
  | [] => []
  | b :: rest => hexDigitByte (b / 16 % 16) :: hexDigitByte (b % 16) :: bytesToHex rest

/-- Whether a byte is an ASCII lowercase hex digit. -/
def isHexDigitByte (b : Nat) : Bool :=
  (48 ≤ b && b ≤ 57) || (97 ≤ b && b ≤ 102)

/-- Byte list of an ASCII string literal. -/
def strBytes (s : String) : List Nat := s.toList.map Char.toNat

/-- Embedding of the constant `interfaceNameLength` (part_000 line 25). -/
def interfaceNameLength : Nat := 15

/-- Embedding of the constant `interfacePrefixLength` (line 26). -/
def interfacePrefixLength : Nat := 8

/-- Embedding of the constant `interfaceKeyLen` (line 27). -/
def interfaceKeyLen : Nat := interfaceNameLength - (interfacePrefixLength + 1)

/-- Embedding of `generateInterfaceName` (line 30): hex-encode the SHA-1
digest of `id`, truncate the name to at most `interfacePrefixLength`
bytes, and join name, hyphen (byte 45) and the first `interfaceKeyLen`
hex digits. -/
def generateInterfaceName (id pfx : List Nat) : List Nat :=
  let interfaceKey := bytesToHex (sha1Sum id)
  let p := if interfacePrefixLength < pfx.length
    then pfx.take interfacePrefixLength else pfx
  p ++ 45 :: interfaceKey.take interfaceKeyLen

/-- Embedding of `GenerateContainerInterfaceName` (line 45): the id is
`pod/<namespace>/<name>` and the prefix is the pod name. -/
def GenerateContainerInterfaceName (podName podNamespace : List Nat) : List Nat :=
  generateInterfaceName (strBytes "pod/" ++ podNamespace ++ strBytes "/" ++ podName)
    podName

/-- Embedding of `GenerateTunnelInterfaceName` (line 52): the id is
`node/<name>` and the prefix is the node name. -/
def GenerateTunnelInterfaceName (nodeName : List Nat) : List Nat :=
  generateInterfaceName (strBytes "node/" ++ nodeName) nodeName

end AntreaUtil

namespace Antrea

/-- Discriminator: whether a terminal action is a resubmission. -/
def OfctrlAction.isResubmit : OfctrlAction → Bool
  | .resubmit _ _ => true
  | _ => false

theorem applyMutCall_eq (b : OfFlowBuilder) (c : MutCall) :
    applyMutCall b c = ⟨⟨b.ofFlow.lastAction, b.ofFlow.mutActions ++ [mutActionOf c]⟩⟩ := by
  cases c <;> rfl

theorem foldl_applyMutCall (ms : List MutCall) (b : OfFlowBuilder) :
    ms.foldl applyMutCall b
      = ⟨⟨b.ofFlow.lastAction, b.ofFlow.mutActions ++ ms.map mutActionOf⟩⟩ := by
  induction ms generalizing b with
  | nil => simp
  | cons c cs ih =>
    rw [List.foldl_cons, applyMutCall_eq, ih]
    simp

theorem applyTermCall_eq (b : OfFlowBuilder) (t : TermCall) :
    applyTermCall b t = ⟨⟨termSlotOf t, b.ofFlow.mutActions⟩⟩ := by
  cases t <;> rfl

theorem applyCTCall_eq (a : OfCTAction) (c : CTCall) :
    applyCTCall a c = ⟨a.base, a.actions ++ [ctActionOf c], a.builder⟩ := by
  cases c <;> rfl

theorem foldl_applyCTCall (cs : List CTCall) (a : OfCTAction) :
    cs.foldl applyCTCall a = ⟨a.base, a.actions ++ cs.map ctActionOf, a.builder⟩ := by
  induction cs generalizing a with
  | nil => simp
  | cons c cs ih =>
    rw [List.foldl_cons, applyCTCall_eq, ih]
    simp

/-- C3: for every field name that resolves to a registered field of width
`w` bytes, `getFieldRange` derives exactly the inclusive full-field bit
window `{0, w*8 - 1}` as the default range (and no error). -/
theorem c3_default_full_field_range (name : String) (f : MatchField)
    (h : findField name = some f) :
    getFieldRange name = (some f, ⟨0, f.Length * 8 - 1⟩, none) := by
  simp [getFieldRange, FindFieldHeaderByName, h, matchFieldLength]

/-- Witness for C3 at the connection-tracking mark field (4 bytes wide). -/
theorem c3_witness_ct_mark :
    getFieldRange NxmFieldCtMark = (some ⟨NxmFieldCtMark, 4⟩, ⟨0, 4 * 8 - 1⟩, none) :=
  c3_default_full_field_range NxmFieldCtMark ⟨NxmFieldCtMark, 4⟩ (by decide)

/-- C4: the register-addressed operations derive the field name
deterministically from the numeric ID and behave identically to the
name-based operations applied to that derived name (the resolution itself
is a pure function, so equal IDs always resolve to the same field). -/
theorem c4_reg_ops_equal_name_ops (a : OfFlowAction) (regID : Int) (value : Nat)
    (rng : Range) :
    a.OutputRegRange regID rng = a.OutputFieldRange (NxmFieldReg ++ toString regID) rng
    ∧ a.LoadRegRange regID value rng
        = a.LoadRange (NxmFieldReg ++ toString regID) value rng :=
  ⟨rfl, rfl⟩

/-- C9: whenever the from field resolves, `Move` resolves both sides'
ranges from the from field's name, so it equals `MoveRange` with the from
field's full default range on both sides; the to field's own width is
never consulted. -/
theorem c9_move_ranges_from_from_field (a : OfFlowAction) (fromName toName : String)
    (f : MatchField) (h : findField fromName = some f) :
    a.Move fromName toName
      = a.MoveRange fromName toName ⟨0, f.Length * 8 - 1⟩ ⟨0, f.Length * 8 - 1⟩ := by
  simp [OfFlowAction.Move, getFieldRange, FindFieldHeaderByName, h, matchFieldLength]

/-- Witness for C9: moving from the 4-byte ct mark field to the (16-byte)
ct label field uses the ct mark's full range `{0, 31}` on both sides. -/
theorem c9_witness_ct_mark_move :
    newAction.Move NxmFieldCtMark NxmFieldCtLabel
      = newAction.MoveRange NxmFieldCtMark NxmFieldCtLabel ⟨0, 4 * 8 - 1⟩
          ⟨0, 4 * 8 - 1⟩ :=
  c9_move_ranges_from_from_field newAction NxmFieldCtMark NxmFieldCtLabel
    ⟨NxmFieldCtMark, 4⟩ (by decide)

/-- C1, counterexample: move-style construction does not fail on ranges of
unequal length. With `fromRange = {0,1}` (length 2) and
`toRange/labelRange = {0,2}` (length 3), `MoveRange` succeeds and records
both ranges unchecked, and `MoveToLabel` succeeds and records the nested
move with bit count 2 taken from the from range alone — no
RangeLengthMismatch error exists anywhere in the construction path. -/
theorem c1_no_length_check_counterexample :
    Range.length ⟨0, 1⟩ ≠ Range.length ⟨0, 2⟩
    ∧ (newAction.MoveRange NxmFieldCtMark NxmFieldCtLabel ⟨0, 1⟩ ⟨0, 2⟩).ofFlow
        = ⟨none, [.moveRegs NxmFieldCtMark NxmFieldCtLabel ⟨0, 1⟩ ⟨0, 2⟩]⟩
    ∧ ((newAction.CT true 1 0).MoveToLabel NxmFieldCtMark ⟨0, 1⟩ ⟨0, 2⟩).actions
        = [.regMove ⟨2, 0, 0, some ⟨NxmFieldCtMark, 4⟩, some ⟨NxmFieldCtLabel, 16⟩⟩] :=
  ⟨by decide, by decide, by decide⟩

/-- C1, as amended: move-style constructions never fail and perform no
range-length check. `MoveRange` records both given ranges as-is;
`MoveToLabel` records the single bit count `uint16(fromRange.length)` and
ignores the label range's length; `Move` derives both sides' ranges from
the from field, so both sides always carry the same range. Mismatched
lengths surface only when the flow is realized on the switch. -/
theorem c1_move_records_unchecked (a : OfFlowAction) (ct : OfCTAction)
    (fromName toName : String) (fr tr : Range) (fn : String) (fr2 lr : Range) :
    (a.MoveRange fromName toName fr tr).ofFlow.mutActions
      = a.builder.ofFlow.mutActions
          ++ [.moveRegs fromName toName fr.toNXRange tr.toNXRange]
    ∧ (ct.MoveToLabel fn fr2 lr).actions
      = ct.actions ++ [.regMove ⟨fr2.length % 65536, fr2.start % 65536,
          lr.start % 65536, (FindFieldHeaderByName fn).1,
          (FindFieldHeaderByName NxmFieldCtLabel).1⟩]
    ∧ (a.Move fromName toName).ofFlow.mutActions
      = a.builder.ofFlow.mutActions
          ++ [.moveRegs fromName toName (getFieldRange fromName).2.1.toNXRange
              (getFieldRange fromName).2.1.toNXRange] :=
  ⟨rfl, rfl, rfl⟩

/-- C2, counterexample: a field-lookup failure is not returned to the
caller and construction proceeds with placeholders. On the unknown name
`no_such_field`, `Move` proceeds and records the placeholder zero range
`{0,0}` on both sides, `OutputFieldRange` proceeds and assigns the nil
result to the terminal slot, and `MoveToLabel` proceeds with a nil from
field; moreover `OutputFieldRange` performs no bounds check: bit 1000 on
the 32-bit `reg0` is accepted as-is (no InvalidRange). -/
theorem c2_errors_discarded_counterexample :
    (FindFieldHeaderByName "no_such_field").2 = some "UnknownField"
    ∧ (newAction.Move "no_such_field" "reg0").ofFlow.mutActions
        = [.moveRegs "no_such_field" "reg0" ⟨0, 0⟩ ⟨0, 0⟩]
    ∧ (newAction.OutputFieldRange "no_such_field" ⟨0, 15⟩).ofFlow.lastAction = none
    ∧ (newAction.OutputFieldRange "reg0" ⟨0, 1000⟩).ofFlow.lastAction
        = some (.nxOutput "reg0" ⟨"reg0", 4⟩ 0 1000)
    ∧ ((newAction.CT true 1 0).MoveToLabel "no_such_field" ⟨0, 1⟩ ⟨0, 1⟩).actions
        = [.regMove ⟨2, 0, 0, none, some ⟨NxmFieldCtLabel, 16⟩⟩] :=
  ⟨by decide, by decide, by decide, by decide, by decide⟩

/-- C2, as amended: constructors silently discard field-lookup errors and
proceed — `Move` with the zero placeholder range `{0,0}` from the failed
`getFieldRange`, `OutputFieldRange` by assigning the nil constructor
result to the terminal slot; no error reaches the caller and no range
validation happens at construction. -/
theorem c2_construction_proceeds_on_error (a : OfFlowAction)
    (name toName : String) (rng : Range) (h : findField name = none) :
    (a.Move name toName).ofFlow.mutActions
      = a.builder.ofFlow.mutActions ++ [.moveRegs name toName ⟨0, 0⟩ ⟨0, 0⟩]
    ∧ (a.OutputFieldRange name rng).ofFlow.lastAction = none := by
  constructor
  · simp [OfFlowAction.Move, OfFlowAction.MoveRange, getFieldRange,
      FindFieldHeaderByName, h, OfFlowBuilder.MoveRegs, OfFlowBuilder.appendMut,
      Range.toNXRange]
  · simp [OfFlowAction.OutputFieldRange, NewNXOutput, h, OfFlowBuilder.withLast]

/-- Witness for C2 as amended, at the unknown name `no_such_field`. -/
theorem c2_witness_unknown_field :
    (newAction.Move "no_such_field" "x").ofFlow.mutActions
      = [.moveRegs "no_such_field" "x" ⟨0, 0⟩ ⟨0, 0⟩]
    ∧ (newAction.OutputFieldRange "no_such_field" ⟨0, 3⟩).ofFlow.lastAction = none := by
  have h := c2_construction_proceeds_on_error newAction "no_such_field" "x" ⟨0, 3⟩
    (by decide)
  simpa using h

/-- C5, counterexample: a zone below zero is still recorded on the
constructed connection-track state — `CT` stores
`ctZone = uint16(zone)`, so zone `-1` (which is `≤ 0`) records the zone
value 65535, not "no zone". -/
theorem c5_zone_recorded_counterexample :
    (-1 : Int) ≤ 0
    ∧ (newAction.CT false 1 (-1)).base.ctZone = 65535
    ∧ (newAction.CT false 1 (-1)).base.ctZone ≠ 0 :=
  ⟨by decide, by decide, by decide⟩

/-- C5, as amended: `CT` opens a sub-builder with `force = false`, the
given commit flag, `ctTable = uint8(tableID)`, an empty nested-action
list and the parent builder, and it always records
`ctZone = uint16(zone)`; a zone `≤ 0` gets no special treatment in the
recorded state (only the textual representation the constructor builds
and discards omits the zone, i.e. it coincides with the representation
for zone 0). -/
theorem c5_ct_base_recorded (a : OfFlowAction) (commit : Bool) (tableID : Nat)
    (zone : Int) :
    (a.CT commit tableID zone).base
        = ⟨commit, false, tableID % 256, toUInt16n zone⟩
    ∧ (a.CT commit tableID zone).actions = []
    ∧ (a.CT commit tableID zone).builder = a.builder
    ∧ (zone ≤ 0 → ctReprString commit tableID zone = ctReprString commit tableID 0) := by
  refine ⟨rfl, rfl, rfl, fun h => ?_⟩
  have h1 : ¬ (zone > 0) := by omega
  have h2 : ¬ ((0 : Int) > 0) := by omega
  simp only [ctReprString]
  rw [if_neg h1, if_neg h2]

/-- Witness for C5 as amended, at zone `-1`. -/
theorem c5_witness_negative_zone :
    (newAction.CT false 1 (-1)).base = ⟨false, false, 1 % 256, toUInt16n (-1)⟩
    ∧ ctReprString false 1 (-1) = ctReprString false 1 0 :=
  ⟨(c5_ct_base_recorded newAction false 1 (-1)).1,
   (c5_ct_base_recorded newAction false 1 (-1)).2.2.2 (by decide)⟩

/-- C6: for every sequence of nested sub-action calls on a ConnTrack
sub-builder, the parent builder (and its flow) is untouched — none of the
accumulated nested actions is visible on it — and `CTDone` then attaches
the whole accumulated sequence, in call order, exactly once as the single
terminal connection-track action of the parent's flow, leaving the
field-mutating actions unchanged. -/
theorem c6_ct_atomic_until_done (ct : OfCTAction) (cs : List CTCall) :
    (cs.foldl applyCTCall ct).builder = ct.builder
    ∧ (cs.foldl applyCTCall ct).base = ct.base
    ∧ (cs.foldl applyCTCall ct).actions = ct.actions ++ cs.map ctActionOf
    ∧ (cs.foldl applyCTCall ct).CTDone
        = ⟨⟨some (.connTrack ct.base.commit ct.base.force ct.base.ctTable
              ct.base.ctZone (ct.actions ++ cs.map ctActionOf)),
            ct.builder.ofFlow.mutActions⟩⟩ := by
  rw [foldl_applyCTCall]
  exact ⟨rfl, rfl, rfl, rfl⟩

/-- C7: opening a ConnTrack sub-builder, appending `LoadToMark 7` and
calling `CTDone` yields a flow whose terminal action is a
connection-track action containing exactly one nested load action, with
value 7 and target range `{0, 31}` — the full window of the 4-byte
connection-tracking mark field; the parent builder is unaffected before
`CTDone`. -/
theorem c7_loadtomark_ctdone :
    ((newAction.CT true 1 0).LoadToMark 7).CTDone
      = ⟨⟨some (.connTrack true false 1 0
            [.regLoad ⟨⟨0, 31⟩, some ⟨NxmFieldCtMark, 4⟩, 7⟩]), []⟩⟩
    ∧ findField NxmFieldCtMark = some ⟨NxmFieldCtMark, 4⟩
    ∧ (getFieldRange NxmFieldCtMark).2.1 = ⟨0, 4 * 8 - 1⟩
    ∧ ((newAction.CT true 1 0).LoadToMark 7).builder = newBuilder :=
  ⟨by decide, by decide, by decide, by decide⟩

/-- C8: terminal calls write a single last-action slot — after any
sequence of field-mutating calls followed by a terminal call, the slot
holds exactly the terminal call's action (any previous content is
overwritten) and the field-mutating actions appear in call order; in
particular a flow built with `Drop` as terminal action has exactly one
action (the drop, with no preceding mutations) and no resubmission. -/
theorem c8_single_terminal_slot (b : OfFlowBuilder) (ms : List MutCall)
    (t : TermCall) :
    (applyTermCall (ms.foldl applyMutCall b) t).ofFlow.lastAction = termSlotOf t
    ∧ (applyTermCall (ms.foldl applyMutCall b) t).ofFlow.mutActions
        = b.ofFlow.mutActions ++ ms.map mutActionOf
    ∧ (applyTermCall newBuilder .drop).ofFlow = ⟨some .dropAction, []⟩
    ∧ ((applyTermCall newBuilder .drop).ofFlow.lastAction).map
        OfctrlAction.isResubmit = some false := by
  rw [foldl_applyMutCall, applyTermCall_eq]
  exact ⟨rfl, rfl, rfl, rfl⟩

end Antrea

namespace AntreaUtil

theorem sha1Digest_length (s : Sha1State) : (sha1Digest s).length = 20 := rfl

theorem sha1Sum_length (msg : List Nat) : (sha1Sum msg).length = 20 :=
  sha1Digest_length _

theorem bytesToHex_length (l : List Nat) : (bytesToHex l).length = 2 * l.length := by
  induction l with
  | nil => rfl
  | cons a t ih =>
    simp only [bytesToHex, List.length_cons, ih]
    omega

theorem hexDigitByte_isHex : ∀ n < 16, isHexDigitByte (hexDigitByte n) = true := by
  decide

theorem bytesToHex_all_hex (l : List Nat) :
    ∀ b ∈ bytesToHex l, isHexDigitByte b = true := by
  induction l with
  | nil => intro b hb; cases hb
  | cons a t ih =>
    intro b hb
    simp only [bytesToHex, List.mem_cons] at hb
    rcases hb with h1 | h2 | h3
    · exact h1 ▸ hexDigitByte_isHex _ (Nat.mod_lt _ (by omega))
    · exact h2 ▸ hexDigitByte_isHex _ (Nat.mod_lt _ (by omega))
    · exact ih b h3

/-- C10: the container interface name is the pod name truncated to at most
8 bytes, a hyphen (byte 45), and exactly the first 6 lowercase hex digits
of the SHA-1 key of `pod/<namespace>/<name>`; its total length is
`min (len podName) 8 + 7`, and it equals the documented fixed length 15
exactly when the pod name has at least 8 bytes. -/
theorem c10_interface_name_shape (podName podNamespace : List Nat) :
    (GenerateContainerInterfaceName podName podNamespace).length
        = min podName.length 8 + 7
    ∧ GenerateContainerInterfaceName podName podNamespace
        = podName.take 8 ++ 45 ::
            (bytesToHex (sha1Sum (strBytes "pod/" ++ podNamespace ++ strBytes "/"
              ++ podName))).take 6
    ∧ ((bytesToHex (sha1Sum (strBytes "pod/" ++ podNamespace ++ strBytes "/"
          ++ podName))).take 6).length = 6
    ∧ ((bytesToHex (sha1Sum (strBytes "pod/" ++ podNamespace ++ strBytes "/"
          ++ podName))).take 6).all isHexDigitByte = true
    ∧ ((GenerateContainerInterfaceName podName podNamespace).length = 15
        ↔ 8 ≤ podName.length) := by
  have hkey : (bytesToHex (sha1Sum (strBytes "pod/" ++ podNamespace ++ strBytes "/"
      ++ podName))).length = 40 := by
    rw [bytesToHex_length, sha1Sum_length]
  have htake : ((bytesToHex (sha1Sum (strBytes "pod/" ++ podNamespace ++ strBytes "/"
      ++ podName))).take 6).length = 6 := by
    rw [List.length_take, hkey]
    omega
  have hstruct : GenerateContainerInterfaceName podName podNamespace
      = podName.take 8 ++ 45 ::
          (bytesToHex (sha1Sum (strBytes "pod/" ++ podNamespace ++ strBytes "/"
            ++ podName))).take 6 := by
    unfold GenerateContainerInterfaceName generateInterfaceName
    have hpfx : (if interfacePrefixLength < podName.length
        then podName.take interfacePrefixLength else podName) = podName.take 8 := by
      by_cases hp : interfacePrefixLength < podName.length
      · rw [if_pos hp]; rfl
      · rw [if_neg hp]
        have hle : podName.length ≤ 8 := by
          simp only [interfacePrefixLength] at hp; omega
        exact (List.take_of_length_le hle).symm
    rw [hpfx]; rfl
  have hlen : (GenerateContainerInterfaceName podName podNamespace).length
      = min podName.length 8 + 7 := by
    rw [hstruct]
    simp only [List.length_append, List.length_cons, htake, List.length_take]
    omega
  refine ⟨hlen, hstruct, htake, ?_, ?_⟩
  · exact List.all_eq_true.mpr (fun b hb =>
      bytesToHex_all_hex _ b (List.take_subset 6 _ hb))
  · rw [hlen]; omega

end AntreaUtil
